import Mathlib

/-!
Verification of the live speech-to-text / translation pipeline implemented in
scripts/usb_audio_stt_translate.py. The embedding below models the two classes
of that script: AudioStreamer (hardware callback, frame queue, stop logic and
the audio_generator consumer loop) and SpeechToTextTranslator (the
process_stream commit/log loop and translate_text). Stateful code is modelled
by explicit state passing; the concurrent producer/consumer interaction is
modelled as an interleaving of atomic events (a callback invocation, a call to
stop_stream, one iteration of the generator loop); the growing session log is
modelled as a file with separately tracked flushed (persisted) and unflushed
(buffered) bytes. Observable history that the Python code emits as it runs
(frames yielded by the generator, committed segments, per-segment appends to
the log) is recorded in dedicated state fields so that theorems can speak
about it.
-/

set_option maxHeartbeats 1000000

namespace STT

/-- State of one AudioStreamer session, together with the observable history
of its generator. Fields is_recording and audio_queue mirror the Python
instance attributes. accepted records, in order, every frame the capture
callback actually enqueued; yielded records, in order, the frames
audio_generator has yielded so far; gen_done records whether the generator
loop has exited. -/
structure StreamerState (α : Type) where
  is_recording : Bool
  audio_queue : List α
  accepted : List α
  yielded : List α
  gen_done : Bool
deriving DecidableEq

/-- The state right after AudioStreamer.__init__: not recording, empty queue,
no generator activity yet. -/
def initStreamer {α : Type} : StreamerState α :=
  { is_recording := false, audio_queue := [], accepted := [], yielded := [], gen_done := false }

/-- AudioStreamer._audio_callback: if self.is_recording then
self.audio_queue.put(in_data). A frame is enqueued (and recorded in the
accepted history) only while the active flag is true; otherwise the state is
untouched. -/
def audio_callback {α : Type} (s : StreamerState α) (frame : α) : StreamerState α :=
  if s.is_recording then
    { s with audio_queue := s.audio_queue ++ [frame], accepted := s.accepted ++ [frame] }
  else s

/-- AudioStreamer.start_stream: sets self.is_recording = True (the device
open and stream start are external effects with no bearing on the queue
state). -/
def start_stream {α : Type} (s : StreamerState α) : StreamerState α :=
  { s with is_recording := true }

/-- AudioStreamer.stop_stream: sets self.is_recording = False (closing the
stream and terminating PyAudio are external effects). -/
def stop_stream {α : Type} (s : StreamerState α) : StreamerState α :=
  { s with is_recording := false }

/-- One iteration of the audio_generator loop:
while self.is_recording: try chunk = self.audio_queue.get(timeout=1);
yield chunk; except queue.Empty: continue.
If the loop has already exited nothing happens. Otherwise the while condition
is checked: if is_recording is false the generator terminates; if the queue
is empty the get times out and the loop merely re-polls; otherwise the front
frame is dequeued and yielded. -/
def gen_step {α : Type} (s : StreamerState α) : StreamerState α :=
  if s.gen_done then s
  else if s.is_recording then
    match s.audio_queue with
    | [] => s
    | f :: rest => { s with audio_queue := rest, yielded := s.yielded ++ [f] }
  else { s with gen_done := true }

/-- An atomic event of the concurrent streamer session: a hardware callback
delivering a frame, a call to stop_stream, or one iteration of the
audio_generator loop. -/
inductive StreamerEvent (α : Type) where
  | callback (frame : α)
  | stop
  | genStep
deriving DecidableEq

/-- Interleaving semantics: apply one atomic event to the streamer state. -/
def streamerStep {α : Type} (s : StreamerState α) : StreamerEvent α → StreamerState α
  | .callback f => audio_callback s f
  | .stop => stop_stream s
  | .genStep => gen_step s

/-- A whole session run: start_stream is called once on the fresh streamer,
then an arbitrary interleaving of callbacks, stop and generator iterations
plays out. -/
def runStreamer {α : Type} (events : List (StreamerEvent α)) : StreamerState α :=
  events.foldl streamerStep (start_stream initStreamer)

/-- A recognition result as consumed by process_stream:
result.alternatives[0].transcript, the wall-clock timestamp string taken when
the result is processed, and result.is_final. -/
structure RecognitionEvent where
  transcript : String
  emittedAt : String
  isFinal : Bool
deriving DecidableEq

/-- The configuration fields of SpeechToTextTranslator: the configured
source_language and target_language codes. -/
structure SpeechToTextTranslator where
  source_language : String
  target_language : String
deriving DecidableEq

/-- The argument record of one call to the translation collaborator
translate_client.translate(text, target_language=..., source_language=...). -/
structure TranslateCall where
  text : String
  target_language : String
  source_language : String
deriving DecidableEq

/-- Python s.split(sep)[0] for the one-character separator, i.e. the part of
s strictly before the first occurrence of the separator (the whole string if
the separator does not occur). -/
def pySplitHead (s : String) : String :=
  (s.data.takeWhile (fun c => c != '-')).asString

/-- The arguments SpeechToTextTranslator.translate_text passes to the
translation collaborator: the text, target_language=self.target_language and
source_language=self.source_language.split('-')[0]. -/
def translate_text_args (tr : SpeechToTextTranslator) (text : String) : TranslateCall :=
  { text := text,
    target_language := tr.target_language,
    source_language := pySplitHead tr.source_language }

/-- SpeechToTextTranslator.translate_text: invoke the translation
collaborator (modelled as a function that may fail) and return
result[translatedText], or on any exception e return the placeholder string
built by the except branch. -/
def translate_text (translator : TranslateCall → Except String String)
    (tr : SpeechToTextTranslator) (text : String) : String :=
  match translator (translate_text_args tr text) with
  | .ok t => t
  | .error e => "[Translation error: " ++ e ++ "]"

/-- The session log file: persisted holds the bytes already flushed to
durable storage, buffered the bytes written but not yet flushed, closed
whether close() has run. -/
structure LogFile where
  persisted : String
  buffered : String
  closed : Bool
deriving DecidableEq

/-- file.write(s): appends to the unflushed buffer. -/
def LogFile.write (f : LogFile) (s : String) : LogFile :=
  { f with buffered := f.buffered ++ s }

/-- file.flush(): moves all buffered bytes into the persisted bytes. -/
def LogFile.flush (f : LogFile) : LogFile :=
  { persisted := f.persisted ++ f.buffered, buffered := "", closed := f.closed }

/-- file.close(): flushes any remaining buffered bytes and marks the file
closed. -/
def LogFile.close (f : LogFile) : LogFile :=
  { persisted := f.persisted ++ f.buffered, buffered := "", closed := true }

/-- A committed segment: the observable record produced by process_stream for
each final recognition result (its assigned number, the timestamp string, the
original transcript, and the translation when translation is enabled). -/
structure Segment where
  sequenceNumber : Nat
  committedAt : String
  originalText : String
  translatedText : Option String
deriving DecidableEq

/-- The state threaded through the process_stream loop: the segment_count
local variable, the optional self.output_file, plus the observable history
(segments committed so far, and the number of per-segment blocks actually
appended to the log file). -/
structure ProcState where
  segment_count : Nat
  output_file : Option LogFile
  segments : List Segment
  appended : Nat
deriving DecidableEq

/-- The sixty-character line of equals signs written by process_stream. -/
def eq60 : String := (List.replicate 60 '=').asString

/-- The sixty-character dashed separator written after each segment. -/
def dash60 : String := (List.replicate 60 '-').asString

/-- Opening of the session log: the header writes performed by process_stream
when save_to_file is true, followed by the explicit flush. -/
def openLog (tr : SpeechToTextTranslator) (startDate : String) : LogFile :=
  let f : LogFile := { persisted := "", buffered := "", closed := false }
  let f := f.write "LIVE TRANSLATION SESSION\n"
  let f := f.write (eq60 ++ "\n")
  let f := f.write ("Date: " ++ startDate ++ "\n")
  let f := f.write ("Source Language: " ++ tr.source_language ++ "\n")
  let f := f.write ("Target Language: " ++ tr.target_language ++ "\n")
  let f := f.write (eq60 ++ "\n\n")
  f.flush

/-- Processing of one recognition result inside the process_stream response
loop. For a final result the segment counter is incremented; if translation
is enabled, translate_text is called and the four-line segment block is
written and flushed; otherwise only the reduced timestamp-plus-transcript
line is written and flushed. Interim results only drive the transient console
display and leave the state untouched. -/
def processResult (tr : SpeechToTextTranslator)
    (translator : TranslateCall → Except String String) (translate_enabled : Bool)
    (st : ProcState) (r : RecognitionEvent) : ProcState :=
  if r.isFinal then
    let n := st.segment_count + 1
    if translate_enabled then
      let translation := translate_text translator tr r.transcript
      match st.output_file with
      | some f =>
        let f := f.write ("[" ++ r.emittedAt ++ "] Segment " ++ toString n ++ "\n")
        let f := f.write ("Original (" ++ tr.source_language ++ "): " ++ r.transcript ++ "\n")
        let f := f.write ("Translation (" ++ tr.target_language ++ "): " ++ translation ++ "\n")
        let f := f.write (dash60 ++ "\n\n")
        { segment_count := n, output_file := some f.flush,
          segments := st.segments ++
            [{ sequenceNumber := n, committedAt := r.emittedAt,
               originalText := r.transcript, translatedText := some translation }],
          appended := st.appended + 1 }
      | none =>
        { segment_count := n, output_file := none,
          segments := st.segments ++
            [{ sequenceNumber := n, committedAt := r.emittedAt,
               originalText := r.transcript, translatedText := some translation }],
          appended := st.appended }
    else
      match st.output_file with
      | some f =>
        { segment_count := n,
          output_file := some ((f.write ("[" ++ r.emittedAt ++ "] " ++ r.transcript ++ "\n\n")).flush),
          segments := st.segments ++
            [{ sequenceNumber := n, committedAt := r.emittedAt,
               originalText := r.transcript, translatedText := none }],
          appended := st.appended + 1 }
      | none =>
        { segment_count := n, output_file := none,
          segments := st.segments ++
            [{ sequenceNumber := n, committedAt := r.emittedAt,
               originalText := r.transcript, translatedText := none }],
          appended := st.appended }
  else st

/-- The trailer string written by the finally clause of process_stream,
rendered for total segment count n. -/
def trailerText (endDate : String) (n : Nat) : String :=
  ("\n" ++ eq60 ++ "\n") ++ ("Session ended: " ++ endDate ++ "\n") ++
    ("Total segments: " ++ toString n ++ "\n")

/-- The finally clause of process_stream: if self.output_file, write the
trailer lines and close the file. It runs whether the response loop finished
normally, stopped on a caught mid-stream exception, or was cut short by a
keyboard interrupt. -/
def closeLog (endDate : String) (st : ProcState) : ProcState :=
  match st.output_file with
  | some f =>
    let f := f.write ("\n" ++ eq60 ++ "\n")
    let f := f.write ("Session ended: " ++ endDate ++ "\n")
    let f := f.write ("Total segments: " ++ toString st.segment_count ++ "\n")
    { st with output_file := some f.close }
  | none => st

/-- SpeechToTextTranslator.process_stream over the sequence of recognition
results that are actually delivered before the loop ends. Abnormal
termination (a mid-stream error caught by the except clause, or an operator
interrupt) is modelled by the delivered list being an arbitrary prefix of the
full session: in every case the finally clause (closeLog) runs at the end. -/
def process_stream (tr : SpeechToTextTranslator)
    (translator : TranslateCall → Except String String)
    (translate_enabled save_to_file : Bool) (startDate endDate : String)
    (events : List RecognitionEvent) : ProcState :=
  let st0 : ProcState :=
    { segment_count := 0,
      output_file := if save_to_file then some (openLog tr startDate) else none,
      segments := [], appended := 0 }
  closeLog endDate (events.foldl (processResult tr translator translate_enabled) st0)

/-- The segment record process_stream commits for a final result r when the
running counter stands at n. -/
def commitOf (translator : TranslateCall → Except String String)
    (tr : SpeechToTextTranslator) (translate_enabled : Bool) (n : Nat)
    (r : RecognitionEvent) : Segment :=
  { sequenceNumber := n, committedAt := r.emittedAt, originalText := r.transcript,
    translatedText :=
      if translate_enabled then some (translate_text translator tr r.transcript) else none }

/-- Specification-side recursion computing the list of segments committed for
a list of recognition results, starting from counter value n. Proved below to
coincide with the segments field of the process_stream fold. -/
def buildSegs (translator : TranslateCall → Except String String)
    (tr : SpeechToTextTranslator) (translate_enabled : Bool) :
    Nat → List RecognitionEvent → List Segment
  | _, [] => []
  | n, r :: rest =>
    if r.isFinal then
      commitOf translator tr translate_enabled (n + 1) r ::
        buildSegs translator tr translate_enabled (n + 1) rest
    else buildSegs translator tr translate_enabled n rest

/-! Internal lemmas. -/

theorem str_append_assoc (a b c : String) : a ++ b ++ c = a ++ (b ++ c) := by
  apply String.ext
  simp [String.data_append]

theorem str_empty_append (s : String) : "" ++ s = s := by
  apply String.ext
  simp [String.data_append]

theorem audio_callback_not_recording {α : Type} (s : StreamerState α) (f : α)
    (h : s.is_recording = false) : audio_callback s f = s := by
  simp [audio_callback, h]

/-- The streamer invariant: the generator has terminated only if the active
flag is false, and the frames yielded so far followed by the frames still
queued are exactly the frames accepted by the callback, in order. -/
def StreamerInv {α : Type} (s : StreamerState α) : Prop :=
  (s.gen_done = true → s.is_recording = false) ∧
    s.yielded ++ s.audio_queue = s.accepted

theorem streamerStep_inv {α : Type} (s : StreamerState α) (e : StreamerEvent α)
    (h : StreamerInv s) : StreamerInv (streamerStep s e) := by
  obtain ⟨h1, h2⟩ := h
  cases e with
  | callback f =>
    by_cases hr : s.is_recording = true
    · refine ⟨?_, ?_⟩
      · intro hd
        have hgd : s.gen_done = true := by
          simpa [streamerStep, audio_callback, hr] using hd
        have hcontra := h1 hgd
        simp [hr] at hcontra
      · simp [streamerStep, audio_callback, hr, ← List.append_assoc, h2]
    · simp only [Bool.not_eq_true] at hr
      simpa [streamerStep, audio_callback_not_recording s f hr] using ⟨h1, h2⟩
  | stop =>
    exact ⟨fun _ => rfl, by simpa [streamerStep, stop_stream] using h2⟩
  | genStep =>
    simp only [streamerStep, gen_step]
    by_cases hd : s.gen_done = true
    · simpa [hd] using ⟨h1, h2⟩
    · simp only [Bool.not_eq_true] at hd
      by_cases hr : s.is_recording = true
      · simp only [hd, hr, Bool.false_eq_true, if_false, if_true]
        cases hq : s.audio_queue with
        | nil => exact ⟨h1, h2⟩
        | cons f rest =>
          refine ⟨by simp [hd, h1], ?_⟩
          simp only
          rw [List.append_assoc]
          simpa [hq] using h2
      · simp only [Bool.not_eq_true] at hr
        simp only [hd, hr, Bool.false_eq_true, if_false]
        exact ⟨fun _ => rfl, h2⟩

theorem foldl_streamerStep_inv {α : Type} (events : List (StreamerEvent α)) :
    ∀ s : StreamerState α, StreamerInv s → StreamerInv (events.foldl streamerStep s) := by
  induction events with
  | nil => intro s h; simpa using h
  | cons e rest ih =>
    intro s h
    simpa using ih (streamerStep s e) (streamerStep_inv s e h)

theorem runStreamer_inv {α : Type} (events : List (StreamerEvent α)) :
    StreamerInv (runStreamer events) := by
  apply foldl_streamerStep_inv
  exact ⟨by simp [start_stream, initStreamer], by simp [start_stream, initStreamer]⟩

theorem processResult_interim (tr : SpeechToTextTranslator)
    (translator : TranslateCall → Except String String) (te : Bool)
    (st : ProcState) (r : RecognitionEvent) (h : r.isFinal = false) :
    processResult tr translator te st r = st := by
  simp [processResult, h]

theorem processResult_final_core (tr : SpeechToTextTranslator)
    (translator : TranslateCall → Except String String) (te : Bool)
    (st : ProcState) (r : RecognitionEvent) (h : r.isFinal = true) :
    (processResult tr translator te st r).segment_count = st.segment_count + 1 ∧
    (processResult tr translator te st r).segments =
      st.segments ++ [commitOf translator tr te (st.segment_count + 1) r] := by
  cases te <;> cases hf : st.output_file <;>
    simp [processResult, h, hf, commitOf]

theorem foldl_processResult_char (tr : SpeechToTextTranslator)
    (translator : TranslateCall → Except String String) (te : Bool)
    (events : List RecognitionEvent) :
    ∀ st : ProcState,
      (events.foldl (processResult tr translator te) st).segments =
        st.segments ++ buildSegs translator tr te st.segment_count events ∧
      (events.foldl (processResult tr translator te) st).segment_count =
        st.segment_count + events.countP (·.isFinal) := by
  induction events with
  | nil => intro st; simp [buildSegs]
  | cons r rest ih =>
    intro st
    cases hf : r.isFinal with
    | false =>
      have hstep := processResult_interim tr translator te st r hf
      obtain ⟨ihs, ihc⟩ := ih st
      constructor
      · simp only [List.foldl_cons, hstep, ihs, buildSegs, hf, Bool.false_eq_true, if_false]
      · simp only [List.foldl_cons, hstep, ihc]
        rw [List.countP_cons_of_neg]
        simp [hf]
    | true =>
      obtain ⟨hc, hs⟩ := processResult_final_core tr translator te st r hf
      obtain ⟨ihs, ihc⟩ := ih (processResult tr translator te st r)
      constructor
      · rw [List.foldl_cons, ihs, hs, hc, List.append_assoc]
        simp [buildSegs, hf]
      · rw [List.foldl_cons, ihc, hc, List.countP_cons_of_pos _ _ (by simp [hf])]
        omega

theorem buildSegs_length (translator : TranslateCall → Except String String)
    (tr : SpeechToTextTranslator) (te : Bool) (events : List RecognitionEvent) :
    ∀ n : Nat, (buildSegs translator tr te n events).length = events.countP (·.isFinal) := by
  induction events with
  | nil => intro n; simp [buildSegs]
  | cons r rest ih =>
    intro n
    cases hf : r.isFinal with
    | false =>
      rw [List.countP_cons_of_neg _ _ (by simp [hf])]
      simp [buildSegs, hf, ih]
    | true =>
      rw [List.countP_cons_of_pos _ _ (by simp [hf])]
      simp [buildSegs, hf, ih]

theorem buildSegs_append (translator : TranslateCall → Except String String)
    (tr : SpeechToTextTranslator) (te : Bool) (xs ys : List RecognitionEvent) :
    ∀ n : Nat, buildSegs translator tr te n (xs ++ ys) =
      buildSegs translator tr te n xs ++
        buildSegs translator tr te (n + xs.countP (·.isFinal)) ys := by
  induction xs with
  | nil => intro n; simp [buildSegs]
  | cons r rest ih =>
    intro n
    cases hf : r.isFinal with
    | false =>
      rw [List.countP_cons_of_neg _ _ (by simp [hf])]
      simp [buildSegs, hf, ih]
    | true =>
      rw [List.countP_cons_of_pos _ _ (by simp [hf])]
      simp only [List.cons_append, buildSegs, hf, if_true, List.append_eq]
      rw [ih (n + 1)]
      have harith : n + 1 + rest.countP (·.isFinal) = n + (rest.countP (·.isFinal) + 1) := by
        omega
      rw [harith]

theorem buildSegs_map_seq (translator : TranslateCall → Except String String)
    (tr : SpeechToTextTranslator) (te : Bool) (events : List RecognitionEvent) :
    ∀ n : Nat, (buildSegs translator tr te n events).map Segment.sequenceNumber =
      List.range' (n + 1) (events.countP (·.isFinal)) := by
  induction events with
  | nil => intro n; simp [buildSegs]
  | cons r rest ih =>
    intro n
    cases hf : r.isFinal with
    | false =>
      rw [List.countP_cons_of_neg _ _ (by simp [hf])]
      simp [buildSegs, hf, ih]
    | true =>
      rw [List.countP_cons_of_pos _ _ (by simp [hf])]
      simp only [buildSegs, hf, if_true, List.map_cons, commitOf]
      rw [List.range'_succ, ih (n + 1)]

theorem buildSegs_map_orig (translator : TranslateCall → Except String String)
    (tr : SpeechToTextTranslator) (te : Bool) (events : List RecognitionEvent) :
    ∀ n : Nat, (buildSegs translator tr te n events).map Segment.originalText =
      (events.filter (·.isFinal)).map RecognitionEvent.transcript := by
  induction events with
  | nil => intro n; simp [buildSegs]
  | cons r rest ih =>
    intro n
    cases hf : r.isFinal with
    | false => simp [buildSegs, hf, ih, List.filter_cons_of_neg]
    | true =>
      rw [List.filter_cons_of_pos (by simp [hf])]
      simp [buildSegs, hf, ih, commitOf]

theorem foldl_processResult_file (tr : SpeechToTextTranslator)
    (translator : TranslateCall → Except String String) (te : Bool)
    (events : List RecognitionEvent) :
    ∀ (st : ProcState) (f : LogFile), st.output_file = some f → f.buffered = "" →
      ∃ g : LogFile, (events.foldl (processResult tr translator te) st).output_file = some g ∧
        g.buffered = "" ∧ g.closed = f.closed ∧
        (events.foldl (processResult tr translator te) st).appended =
          st.appended + events.countP (·.isFinal) := by
  induction events with
  | nil => intro st f hf hb; exact ⟨f, by simpa using hf, hb, rfl, by simp⟩
  | cons r rest ih =>
    intro st f hf hb
    cases hfin : r.isFinal with
    | false =>
      have hstep := processResult_interim tr translator te st r hfin
      obtain ⟨g, hg1, hg2, hg3, hg4⟩ := ih st f hf hb
      refine ⟨g, by simpa [hstep] using hg1, hg2, hg3, ?_⟩
      rw [List.foldl_cons, hstep, hg4, List.countP_cons_of_neg _ _ (by simp [hfin])]
    | true =>
      cases te with
      | true =>
        obtain ⟨g, hg1, hg2, hg3, hg4⟩ :=
          ih (processResult tr translator true st r)
            ((((f.write ("[" ++ r.emittedAt ++ "] Segment " ++
                  toString (st.segment_count + 1) ++ "\n")).write
                ("Original (" ++ tr.source_language ++ "): " ++ r.transcript ++ "\n")).write
                ("Translation (" ++ tr.target_language ++ "): " ++
                  translate_text translator tr r.transcript ++ "\n")).write
                (dash60 ++ "\n\n")).flush
            (by simp [processResult, hfin, hf]) (by simp [LogFile.flush])
        refine ⟨g, by simpa using hg1, hg2, by simpa [LogFile.flush, LogFile.write] using hg3, ?_⟩
        rw [List.foldl_cons, hg4, List.countP_cons_of_pos _ _ (by simp [hfin])]
        simp [processResult, hfin, hf]
        omega
      | false =>
        obtain ⟨g, hg1, hg2, hg3, hg4⟩ :=
          ih (processResult tr translator false st r)
            ((f.write ("[" ++ r.emittedAt ++ "] " ++ r.transcript ++ "\n\n")).flush)
            (by simp [processResult, hfin, hf]) (by simp [LogFile.flush])
        refine ⟨g, by simpa using hg1, hg2, by simpa [LogFile.flush, LogFile.write] using hg3, ?_⟩
        rw [List.foldl_cons, hg4, List.countP_cons_of_pos _ _ (by simp [hfin])]
        simp [processResult, hfin, hf]
        omega

theorem translate_text_error (translator : TranslateCall → Except String String)
    (tr : SpeechToTextTranslator) (text m : String)
    (h : translator (translate_text_args tr text) = .error m) :
    translate_text translator tr text = "[Translation error: " ++ m ++ "]" := by
  simp [translate_text, h]

theorem closeLog_segments (ed : String) (st : ProcState) :
    (closeLog ed st).segments = st.segments := by
  cases h : st.output_file <;> simp [closeLog, h]

theorem closeLog_segment_count (ed : String) (st : ProcState) :
    (closeLog ed st).segment_count = st.segment_count := by
  cases h : st.output_file <;> simp [closeLog, h]

theorem closeLog_appended (ed : String) (st : ProcState) :
    (closeLog ed st).appended = st.appended := by
  cases h : st.output_file <;> simp [closeLog, h]

theorem closeLog_some (ed : String) (st : ProcState) (g : LogFile)
    (hg : st.output_file = some g) (hb : g.buffered = "") :
    (closeLog ed st).output_file =
      some { persisted := g.persisted ++ trailerText ed st.segment_count,
             buffered := "", closed := true } := by
  simp [closeLog, hg, LogFile.write, LogFile.close, trailerText, hb,
    str_empty_append, str_append_assoc]

theorem process_stream_true_eq (tr : SpeechToTextTranslator)
    (translator : TranslateCall → Except String String) (te : Bool)
    (hd ed : String) (events : List RecognitionEvent) :
    process_stream tr translator te true hd ed events =
      closeLog ed (events.foldl (processResult tr translator te)
        { segment_count := 0, output_file := some (openLog tr hd),
          segments := [], appended := 0 }) := rfl

theorem process_stream_segments (tr : SpeechToTextTranslator)
    (translator : TranslateCall → Except String String) (te sv : Bool)
    (hd ed : String) (events : List RecognitionEvent) :
    (process_stream tr translator te sv hd ed events).segments =
      buildSegs translator tr te 0 events := by
  simp only [process_stream, closeLog_segments]
  have h := (foldl_processResult_char tr translator te events
    { segment_count := 0,
      output_file := if sv then some (openLog tr hd) else none,
      segments := [], appended := 0 }).1
  simpa using h

theorem process_stream_segment_count (tr : SpeechToTextTranslator)
    (translator : TranslateCall → Except String String) (te sv : Bool)
    (hd ed : String) (events : List RecognitionEvent) :
    (process_stream tr translator te sv hd ed events).segment_count =
      events.countP (·.isFinal) := by
  simp only [process_stream, closeLog_segment_count]
  have h := (foldl_processResult_char tr translator te events
    { segment_count := 0,
      output_file := if sv then some (openLog tr hd) else none,
      segments := [], appended := 0 }).2
  simpa using h

theorem process_stream_appended_save (tr : SpeechToTextTranslator)
    (translator : TranslateCall → Except String String) (te : Bool)
    (hd ed : String) (events : List RecognitionEvent) :
    (process_stream tr translator te true hd ed events).appended =
      events.countP (·.isFinal) := by
  rw [process_stream_true_eq, closeLog_appended]
  obtain ⟨g, _, _, _, h4⟩ := foldl_processResult_file tr translator te events
    { segment_count := 0, output_file := some (openLog tr hd),
      segments := [], appended := 0 } (openLog tr hd) rfl rfl
  simpa using h4

/-! Claim theorems. -/

/-- C1 counterexample: in the run where one frame is enqueued, stop_stream is
then called, and the generator loop runs one more iteration, the generator
terminates while the queue still holds the frame, and the enqueued frame is
never yielded. This refutes the claim that the generator terminates only when
the active flag is false AND the queue is empty, and that no queued frame is
lost when capture stops. -/
theorem c1_counterexample :
    (runStreamer [StreamerEvent.callback (0 : Nat), StreamerEvent.stop,
        StreamerEvent.genStep]).gen_done = true ∧
    (runStreamer [StreamerEvent.callback (0 : Nat), StreamerEvent.stop,
        StreamerEvent.genStep]).audio_queue = [0] ∧
    (runStreamer [StreamerEvent.callback (0 : Nat), StreamerEvent.stop,
        StreamerEvent.genStep]).yielded = [] ∧
    (runStreamer [StreamerEvent.callback (0 : Nat), StreamerEvent.stop,
        StreamerEvent.genStep]).accepted = [0] := by
  decide

/-- C1 (amended): in every interleaved run of a streamer session, the
generator loop has terminated only if the capture-active flag was observed
false (the queue need not be empty at that point), and the frames yielded so
far followed by the frames still queued are exactly the frames the callback
enqueued, in order - so the generator never skips, duplicates or reorders a
frame, but frames still queued when the flag is observed false are never
yielded. -/
theorem c1_generator_drain {α : Type} (events : List (StreamerEvent α)) :
    ((runStreamer events).gen_done && (runStreamer events).is_recording) = false ∧
    (runStreamer events).yielded ++ (runStreamer events).audio_queue =
      (runStreamer events).accepted := by
  obtain ⟨h1, h2⟩ := runStreamer_inv events
  refine ⟨?_, h2⟩
  cases hd : (runStreamer events).gen_done with
  | false => simp
  | true => simp [h1 hd]

/-- C2: for any sequence of recognition events, the committed segments carry
sequence numbers 1, 2, 3, ... - strictly increasing starting at 1, exactly
one segment per final event - and their original texts list the final events
in exactly the order they were received. -/
theorem c2_segment_monotonicity (tr : SpeechToTextTranslator)
    (translator : TranslateCall → Except String String) (te sv : Bool)
    (hd ed : String) (events : List RecognitionEvent) :
    (process_stream tr translator te sv hd ed events).segments.map Segment.sequenceNumber =
      List.range' 1 (events.countP (·.isFinal)) ∧
    (process_stream tr translator te sv hd ed events).segments.map Segment.originalText =
      (events.filter (·.isFinal)).map RecognitionEvent.transcript := by
  rw [process_stream_segments]
  exact ⟨buildSegs_map_seq translator tr te events 0,
    buildSegs_map_orig translator tr te events 0⟩

/-- C3: whenever the session log is opened (save_to_file), the resulting log
file is closed with the trailer, for every delivered event sequence -
including any prefix cut short by a mid-stream error or an operator
interrupt, since the finally clause always runs - and the Total segments
figure rendered in the trailer equals the number of segment blocks actually
appended to the log. -/
theorem c3_trailer_matches_appends (tr : SpeechToTextTranslator)
    (translator : TranslateCall → Except String String) (te : Bool)
    (hd ed : String) (events : List RecognitionEvent) :
    ∃ f : LogFile,
      (process_stream tr translator te true hd ed events).output_file = some f ∧
      f.closed = true ∧
      (process_stream tr translator te true hd ed events).appended =
        events.countP (·.isFinal) ∧
      ∃ body : String,
        f.persisted = body ++ trailerText ed
          ((process_stream tr translator te true hd ed events).appended) := by
  obtain ⟨g, hg1, hg2, hg3, hg4⟩ := foldl_processResult_file tr translator te events
    { segment_count := 0, output_file := some (openLog tr hd),
      segments := [], appended := 0 } (openLog tr hd) rfl rfl
  have hclose := closeLog_some ed
    (events.foldl (processResult tr translator te)
      { segment_count := 0, output_file := some (openLog tr hd),
        segments := [], appended := 0 }) g hg1 hg2
  have hcount : (events.foldl (processResult tr translator te)
      { segment_count := 0, output_file := some (openLog tr hd),
        segments := [], appended := 0 } : ProcState).segment_count =
      events.countP (·.isFinal) := by
    simpa using (foldl_processResult_char tr translator te events
      { segment_count := 0, output_file := some (openLog tr hd),
        segments := [], appended := 0 }).2
  have happ : (process_stream tr translator te true hd ed events).appended =
      events.countP (·.isFinal) := process_stream_appended_save tr translator te hd ed events
  rw [hcount] at hclose
  refine ⟨{ persisted := g.persisted ++ trailerText ed (events.countP (·.isFinal)),
            buffered := "", closed := true }, ?_, rfl, happ, g.persisted, ?_⟩
  · rw [process_stream_true_eq]
    exact hclose
  · rw [happ]

/-- C4: a translation failure for segment k is non-fatal. If the translator
collaborator fails with message m on the final event ek, the committed
segment for ek still appears, carrying the visible error placeholder as its
translation, the next final event ek1 is still committed with the next
sequence number, and every final event of the session - including ek and
ek1 - is appended to the log and counted. -/
theorem c4_translation_isolation (tr : SpeechToTextTranslator)
    (translator : TranslateCall → Except String String) (hd ed m : String)
    (pre post : List RecognitionEvent) (ek ek1 : RecognitionEvent)
    (h1 : ek.isFinal = true) (h2 : ek1.isFinal = true)
    (hfail : translator (translate_text_args tr ek.transcript) = Except.error m) :
    ∃ A B : List Segment,
      (process_stream tr translator true true hd ed (pre ++ [ek, ek1] ++ post)).segments =
        A ++ ({ sequenceNumber := pre.countP (·.isFinal) + 1, committedAt := ek.emittedAt,
                originalText := ek.transcript,
                translatedText := some ("[Translation error: " ++ m ++ "]") } : Segment) ::
          ({ sequenceNumber := pre.countP (·.isFinal) + 2, committedAt := ek1.emittedAt,
             originalText := ek1.transcript,
             translatedText := some (translate_text translator tr ek1.transcript) } : Segment) ::
          B ∧
      A.length = pre.countP (·.isFinal) ∧
      (process_stream tr translator true true hd ed (pre ++ [ek, ek1] ++ post)).appended =
        (pre ++ [ek, ek1] ++ post).countP (·.isFinal) ∧
      (process_stream tr translator true true hd ed (pre ++ [ek, ek1] ++ post)).segment_count =
        (pre ++ [ek, ek1] ++ post).countP (·.isFinal) := by
  refine ⟨buildSegs translator tr true 0 pre,
    buildSegs translator tr true (pre.countP (·.isFinal) + 2) post, ?_,
    buildSegs_length translator tr true pre 0,
    process_stream_appended_save tr translator true hd ed (pre ++ [ek, ek1] ++ post),
    process_stream_segment_count tr translator true true hd ed (pre ++ [ek, ek1] ++ post)⟩
  rw [process_stream_segments, buildSegs_append, buildSegs_append]
  have hmid : buildSegs translator tr true (0 + pre.countP (·.isFinal)) [ek, ek1] =
      [commitOf translator tr true (pre.countP (·.isFinal) + 1) ek,
       commitOf translator tr true (pre.countP (·.isFinal) + 2) ek1] := by
    simp only [buildSegs, h1, h2, if_true, Nat.zero_add]
  rw [hmid]
  have hek : commitOf translator tr true (pre.countP (·.isFinal) + 1) ek =
      { sequenceNumber := pre.countP (·.isFinal) + 1, committedAt := ek.emittedAt,
        originalText := ek.transcript,
        translatedText := some ("[Translation error: " ++ m ++ "]") } := by
    simp [commitOf, translate_text_error translator tr ek.transcript m hfail]
  have hek1 : commitOf translator tr true (pre.countP (·.isFinal) + 2) ek1 =
      { sequenceNumber := pre.countP (·.isFinal) + 2, committedAt := ek1.emittedAt,
        originalText := ek1.transcript,
        translatedText := some (translate_text translator tr ek1.transcript) } := by
    simp [commitOf]
  rw [hek, hek1]
  have hcnt : (pre ++ [ek, ek1]).countP (·.isFinal) = pre.countP (·.isFinal) + 2 := by
    rw [List.countP_append]
    simp [h1, h2]
  rw [hcnt]
  simp

/-- C4 witness: a two-utterance session in which the translator fails on the
first final event. -/
theorem c4_translation_isolation_witness :
    ((⟨"Good morning everyone.", "14:31:05", true⟩ : RecognitionEvent).isFinal = true) ∧
    ((⟨"Let us pray.", "14:31:12", true⟩ : RecognitionEvent).isFinal = true) ∧
    ((fun _ => Except.error "quota exceeded" : TranslateCall → Except String String)
        (translate_text_args { source_language := "en-US", target_language := "es" }
          (⟨"Good morning everyone.", "14:31:05", true⟩ : RecognitionEvent).transcript) =
      Except.error "quota exceeded") ∧
    (∃ A B : List Segment,
      (process_stream { source_language := "en-US", target_language := "es" }
          (fun _ => Except.error "quota exceeded") true true "D" "E"
          (([] : List RecognitionEvent) ++
            ([⟨"Good morning everyone.", "14:31:05", true⟩,
              ⟨"Let us pray.", "14:31:12", true⟩] : List RecognitionEvent) ++
            ([] : List RecognitionEvent))).segments =
        A ++ ({ sequenceNumber := ([] : List RecognitionEvent).countP (·.isFinal) + 1,
                committedAt := (⟨"Good morning everyone.", "14:31:05", true⟩ :
                  RecognitionEvent).emittedAt,
                originalText := (⟨"Good morning everyone.", "14:31:05", true⟩ :
                  RecognitionEvent).transcript,
                translatedText := some ("[Translation error: " ++ "quota exceeded" ++ "]") } :
            Segment) ::
          ({ sequenceNumber := ([] : List RecognitionEvent).countP (·.isFinal) + 2,
             committedAt := (⟨"Let us pray.", "14:31:12", true⟩ : RecognitionEvent).emittedAt,
             originalText := (⟨"Let us pray.", "14:31:12", true⟩ : RecognitionEvent).transcript,
             translatedText := some (translate_text (fun _ => Except.error "quota exceeded")
               { source_language := "en-US", target_language := "es" }
               (⟨"Let us pray.", "14:31:12", true⟩ : RecognitionEvent).transcript) } : Segment) ::
          B ∧
      A.length = ([] : List RecognitionEvent).countP (·.isFinal) ∧
      (process_stream { source_language := "en-US", target_language := "es" }
          (fun _ => Except.error "quota exceeded") true true "D" "E"
          (([] : List RecognitionEvent) ++
            ([⟨"Good morning everyone.", "14:31:05", true⟩,
              ⟨"Let us pray.", "14:31:12", true⟩] : List RecognitionEvent) ++
            ([] : List RecognitionEvent))).appended =
        ((([] : List RecognitionEvent) ++
          ([⟨"Good morning everyone.", "14:31:05", true⟩,
            ⟨"Let us pray.", "14:31:12", true⟩] : List RecognitionEvent) ++
          ([] : List RecognitionEvent)).countP (·.isFinal)) ∧
      (process_stream { source_language := "en-US", target_language := "es" }
          (fun _ => Except.error "quota exceeded") true true "D" "E"
          (([] : List RecognitionEvent) ++
            ([⟨"Good morning everyone.", "14:31:05", true⟩,
              ⟨"Let us pray.", "14:31:12", true⟩] : List RecognitionEvent) ++
            ([] : List RecognitionEvent))).segment_count =
        ((([] : List RecognitionEvent) ++
          ([⟨"Good morning everyone.", "14:31:05", true⟩,
            ⟨"Let us pray.", "14:31:12", true⟩] : List RecognitionEvent) ++
          ([] : List RecognitionEvent)).countP (·.isFinal))) :=
  ⟨rfl, rfl, rfl,
    c4_translation_isolation { source_language := "en-US", target_language := "es" }
      (fun _ => Except.error "quota exceeded") "D" "E" "quota exceeded" [] []
      ⟨"Good morning everyone.", "14:31:05", true⟩
      ⟨"Let us pray.", "14:31:12", true⟩ rfl rfl rfl⟩

/-- C5: after the per-segment write in the commit path completes for a final
event, the log file holds no unflushed bytes (everything written for the
segment has been flushed before any further processing), the file is no more
closed than it was, and the transcript text of the segment is present in the
persisted bytes of the log. -/
theorem c5_append_durability (tr : SpeechToTextTranslator)
    (translator : TranslateCall → Except String String) (te : Bool)
    (st : ProcState) (f : LogFile) (r : RecognitionEvent)
    (hf : st.output_file = some f) (hr : r.isFinal = true) :
    ∃ g : LogFile, (processResult tr translator te st r).output_file = some g ∧
      g.buffered = "" ∧ g.closed = f.closed ∧
      ∃ pr po : String, g.persisted = pr ++ r.transcript ++ po := by
  cases te with
  | false =>
    refine ⟨(f.write ("[" ++ r.emittedAt ++ "] " ++ r.transcript ++ "\n\n")).flush,
      by simp [processResult, hr, hf], rfl, rfl,
      f.persisted ++ f.buffered ++ "[" ++ r.emittedAt ++ "] ", "\n\n", ?_⟩
    apply String.ext
    simp only [LogFile.write, LogFile.flush, String.data_append, List.append_assoc]
  | true =>
    refine ⟨((((f.write ("[" ++ r.emittedAt ++ "] Segment " ++
          toString (st.segment_count + 1) ++ "\n")).write
        ("Original (" ++ tr.source_language ++ "): " ++ r.transcript ++ "\n")).write
        ("Translation (" ++ tr.target_language ++ "): " ++
          translate_text translator tr r.transcript ++ "\n")).write
        (dash60 ++ "\n\n")).flush,
      by simp [processResult, hr, hf], rfl, rfl,
      f.persisted ++ f.buffered ++ ("[" ++ r.emittedAt ++ "] Segment " ++
        toString (st.segment_count + 1) ++ "\n") ++ "Original (" ++
        tr.source_language ++ "): ",
      "\n" ++ ("Translation (" ++ tr.target_language ++ "): " ++
        translate_text translator tr r.transcript ++ "\n") ++ (dash60 ++ "\n\n"), ?_⟩
    apply String.ext
    simp only [LogFile.write, LogFile.flush, String.data_append, List.append_assoc]

/-- C5 witness: a concrete final event appended to a concrete open log. -/
theorem c5_append_durability_witness :
    (({ segment_count := 0, output_file := some { persisted := "H", buffered := "", closed := false },
        segments := [], appended := 0 } : ProcState).output_file =
      some { persisted := "H", buffered := "", closed := false }) ∧
    ((⟨"Good morning everyone.", "14:31:05", true⟩ : RecognitionEvent).isFinal = true) ∧
    ∃ g : LogFile,
      (processResult { source_language := "en-US", target_language := "es" }
        (fun _ => Except.ok "Buenos dias a todos.") true
        { segment_count := 0, output_file := some { persisted := "H", buffered := "", closed := false },
          segments := [], appended := 0 }
        ⟨"Good morning everyone.", "14:31:05", true⟩).output_file = some g ∧
      g.buffered = "" ∧
      g.closed = ({ persisted := "H", buffered := "", closed := false } : LogFile).closed ∧
      ∃ pr po : String, g.persisted = pr ++ "Good morning everyone." ++ po :=
  ⟨rfl, rfl, c5_append_durability _ _ _ _ _ _ rfl rfl⟩

/-- C6 counterexample: with the configured source language en-US, the source
language argument actually passed to the translation collaborator is en, not
the configured code en-US - so translate does not receive exactly the
configured source-language code. -/
theorem c6_counterexample :
    (translate_text_args { source_language := "en-US", target_language := "es" }
        "Good morning everyone.").source_language ≠
      ({ source_language := "en-US", target_language := "es" } :
        SpeechToTextTranslator).source_language := by
  decide

/-- C6 (amended): the translation collaborator is invoked with the transcript
text itself and exactly the configured target-language code, but the source
language it receives is only the part of the configured source-language code
before the first hyphen (a prefix of the configured code), e.g. en for the
configured en-US. -/
theorem c6_translate_arguments (tr : SpeechToTextTranslator) (text : String) :
    (translate_text_args tr text).text = text ∧
    (translate_text_args tr text).target_language = tr.target_language ∧
    (translate_text_args tr text).source_language = pySplitHead tr.source_language ∧
    (translate_text_args tr text).source_language.data <+: tr.source_language.data :=
  ⟨rfl, rfl, rfl, List.takeWhile_prefix _⟩

/-- C7: a recognition event that is not final produces no segment, writes
nothing to the session log, and leaves the segment counter untouched: the
commit state is completely unchanged. -/
theorem c7_interim_no_commit (tr : SpeechToTextTranslator)
    (translator : TranslateCall → Except String String) (te : Bool)
    (st : ProcState) (r : RecognitionEvent) (h : r.isFinal = false) :
    processResult tr translator te st r = st :=
  processResult_interim tr translator te st r h

/-- C7 witness: a concrete interim event leaves a concrete state unchanged. -/
theorem c7_interim_no_commit_witness :
    ((⟨"hello wor", "10:00:00", false⟩ : RecognitionEvent).isFinal = false) ∧
    processResult { source_language := "en-US", target_language := "es" }
      (fun _ => Except.ok "hola") true
      { segment_count := 3, output_file := some { persisted := "H", buffered := "", closed := false },
        segments := [], appended := 3 }
      ⟨"hello wor", "10:00:00", false⟩ =
      { segment_count := 3, output_file := some { persisted := "H", buffered := "", closed := false },
        segments := [], appended := 3 } :=
  ⟨rfl, c7_interim_no_commit _ _ _ _ _ rfl⟩

/-- C8: a queue timeout is not an error and does not terminate the frame
sequence: one generator iteration on a state where capture is active and the
queue is empty leaves the state exactly as it was - in particular the
generator is not marked done, and it simply re-polls on the next
iteration. -/
theorem c8_timeout_repolls {α : Type} (s : StreamerState α)
    (h1 : s.is_recording = true) (h2 : s.audio_queue = []) :
    gen_step s = s := by
  by_cases hd : s.gen_done = true
  · simp [gen_step, hd]
  · simp only [Bool.not_eq_true] at hd
    simp [gen_step, hd, h1, h2]

/-- C8 witness: a concrete active empty-queue state is unchanged by one
generator iteration. -/
theorem c8_timeout_repolls_witness :
    ((⟨true, [], [], [], false⟩ : StreamerState Nat).is_recording = true) ∧
    ((⟨true, [], [], [], false⟩ : StreamerState Nat).audio_queue = []) ∧
    gen_step (⟨true, [], [], [], false⟩ : StreamerState Nat) =
      (⟨true, [], [], [], false⟩ : StreamerState Nat) :=
  ⟨rfl, rfl, c8_timeout_repolls _ rfl rfl⟩

/-- C9: once stop_stream has set the capture-active flag false, no sequence
of further capture-callback invocations changes the state at all - in
particular the frame queue is unchanged, so no frame is enqueued after
shutdown has begun. -/
theorem c9_no_enqueue_after_stop {α : Type} (s : StreamerState α) (frames : List α) :
    frames.foldl audio_callback (stop_stream s) = stop_stream s ∧
    (frames.foldl audio_callback (stop_stream s)).audio_queue = s.audio_queue := by
  have key : frames.foldl audio_callback (stop_stream s) = stop_stream s := by
    induction frames with
    | nil => rfl
    | cons f rest ih =>
      rw [List.foldl_cons, audio_callback_not_recording _ _ rfl]
      exact ih
  exact ⟨key, by rw [key]; rfl⟩

/-- C10: when translation is disabled and a log file is open, a final event
is written to the log in the reduced format consisting exactly of the
timestamp in brackets and the transcript followed by a blank line - with no
Segment number line, no Original/Translation labelled lines and no dashed
separator - and the write is flushed; the segment is committed without a
translation. -/
theorem c10_reduced_format (tr : SpeechToTextTranslator)
    (translator : TranslateCall → Except String String) (st : ProcState)
    (f : LogFile) (r : RecognitionEvent)
    (hf : st.output_file = some f) (hr : r.isFinal = true) :
    processResult tr translator false st r =
      { segment_count := st.segment_count + 1,
        output_file := some
          { persisted := f.persisted ++
              (f.buffered ++ ("[" ++ r.emittedAt ++ "] " ++ r.transcript ++ "\n\n")),
            buffered := "", closed := f.closed },
        segments := st.segments ++
          [{ sequenceNumber := st.segment_count + 1, committedAt := r.emittedAt,
             originalText := r.transcript, translatedText := none }],
        appended := st.appended + 1 } := by
  simp [processResult, hr, hf, LogFile.write, LogFile.flush]

/-- C10 witness: a concrete final event written with translation disabled. -/
theorem c10_reduced_format_witness :
    (({ segment_count := 0, output_file := some { persisted := "H", buffered := "", closed := false },
        segments := [], appended := 0 } : ProcState).output_file =
      some { persisted := "H", buffered := "", closed := false }) ∧
    ((⟨"Let us pray.", "14:31:12", true⟩ : RecognitionEvent).isFinal = true) ∧
    processResult { source_language := "en-US", target_language := "es" }
      (fun _ => Except.ok "Oremos.") false
      { segment_count := 0, output_file := some { persisted := "H", buffered := "", closed := false },
        segments := [], appended := 0 }
      ⟨"Let us pray.", "14:31:12", true⟩ =
      { segment_count := 1,
        output_file := some
          { persisted := "H" ++ ("" ++ ("[" ++ "14:31:12" ++ "] " ++ "Let us pray." ++ "\n\n")),
            buffered := "", closed := false },
        segments := [{ sequenceNumber := 1, committedAt := "14:31:12",
                       originalText := "Let us pray.", translatedText := none }],
        appended := 1 } :=
  ⟨rfl, rfl, c10_reduced_format _ _ _ _ _ rfl rfl⟩

end STT
